import Mathlib

/-!
Verification development for the video-genie pipeline worker.

The definitions below are shallow embeddings of the Go sources:
  * `internal/models/models.go`   — status enumerations and row types
  * `internal/storage/storage.go` — retrying upload/download transport
  * `internal/services/xai_video.go` — submit-then-poll video generation
  * the worker package (`handleProcessClip`, `handleRenderFinal`,
    `withSemaphore`) and `internal/db/projects.go` status writes.

Machine integers are modelled as `Nat`/`Rat`; fallible Go calls return
`Except String`; goroutine interleavings are modelled by explicit
interleaving sets or by small-step transition relations.
-/

namespace VideoGenie

/-- Project status enumeration from `internal/models/models.go`. -/
inductive ProjectStatus where
  | queued
  | planning
  | generating
  | rendering
  | completed
  | failed
deriving DecidableEq, Repr

/-- Clip status enumeration from `internal/models/models.go`. -/
inductive ClipStatus where
  | pending
  | voiced
  | imaged
  | rendered
  | failed
deriving DecidableEq, Repr

/-! ## Retrying transport (`internal/storage/storage.go`) -/

namespace Storage

/-- `strings.Contains` from Go, used by `isRetryableError`. -/
def goContains (s pat : String) : Bool :=
  decide (pat.toList <:+: s.toList)

/-- `maxRetries` constant (number of additional attempts after the first). -/
def maxRetries : Nat := 4

/-- `baseRetryDelay` in seconds. -/
def baseRetryDelaySec : ℚ := 1

/-- `maxRetryDelay` in seconds. -/
def maxRetryDelaySec : ℚ := 30

/-- `retryDelay` computes exponential backoff with jitter:
`base * 2^(attempt-1)` capped at `maxRetryDelay`, plus `delay * 0.25 * r`
where `r = rand.Float64() ∈ [0,1)`.  The random draw is passed in
explicitly as `jitter`. -/
def retryDelay (attempt : Nat) (jitter : ℚ) : ℚ :=
  let d : ℚ := min (baseRetryDelaySec * 2 ^ (attempt - 1)) maxRetryDelaySec
  d + d * (1 / 4) * jitter

/-- `isRetryableError` from the source: a network-level error is retried
when its message contains one of the fixed transient signatures. -/
def isRetryableError (msg : String) : Bool :=
  goContains msg "timeout" ||
  goContains msg "deadline exceeded" ||
  goContains msg "connection reset" ||
  goContains msg "connection refused" ||
  goContains msg "EOF" ||
  goContains msg "broken pipe"

/-- `isRetryableStatus`: HTTP 429, 408, 502, 503, 504 are retried. -/
def isRetryableStatus (status : Nat) : Bool :=
  status == 429 || status == 408 || status == 502 || status == 503 || status == 504

/-- Outcome of one HTTP attempt inside `Upload`/`Download`: either the
round trip itself failed with an error message, or a status code and
response body came back. -/
inductive AttemptOutcome where
  | netErr (msg : String)
  | http (status : Nat) (body : String)
deriving DecidableEq, Repr

/-- Result of the whole retry loop, recording how many attempts ran. -/
inductive UploadResult where
  | success (attempts : Nat)
  | fatal (attempts : Nat) (err : String)
  | exhausted (attempts : Nat) (err : String)
deriving DecidableEq, Repr

/-- Error string produced by one failed attempt, as `Upload` records it
into `lastErr`. -/
def attemptErr : AttemptOutcome → String
  | .netErr m => "failed to upload: " ++ m
  | .http st body => "upload failed with status " ++ toString st ++ ": " ++ body

/-- The attempt is accepted by `Upload` (HTTP 200 or 201). -/
def attemptSuccess : AttemptOutcome → Bool
  | .netErr _ => false
  | .http st _ => st == 200 || st == 201

/-- The attempt fails but the loop continues: a retryable network error,
or a non-success retryable HTTP status. -/
def attemptRetryable : AttemptOutcome → Bool
  | .netErr m => isRetryableError m
  | .http st _ => !(st == 200 || st == 201) && isRetryableStatus st

/-- The body of `Upload`'s `for attempt := 0; attempt <= maxRetries` loop,
with the fuel argument counting the remaining loop iterations
(`maxRetries + 1 - attempt`).  `outcomes a` is what the `a`-th HTTP attempt
returns. -/
def uploadLoop (outcomes : Nat → AttemptOutcome) : Nat → Nat → String → UploadResult
  | 0, _, lastErr =>
      .exhausted (maxRetries + 1)
        ("upload failed after " ++ toString (maxRetries + 1) ++ " attempts: " ++ lastErr)
  | fuel + 1, attempt, _ =>
      match outcomes attempt with
      | .netErr m =>
          if isRetryableError m then
            uploadLoop outcomes fuel (attempt + 1) ("failed to upload: " ++ m)
          else
            .fatal (attempt + 1) ("failed to upload: " ++ m)
      | .http st body =>
          if st == 200 || st == 201 then
            .success (attempt + 1)
          else
            let e := "upload failed with status " ++ toString st ++ ": " ++ body
            if isRetryableStatus st then
              uploadLoop outcomes fuel (attempt + 1) e
            else
              .fatal (attempt + 1) e

/-- `Storage.Upload`, abstracted over the per-attempt outcomes.  The
caller's context is modelled as never cancelled. -/
def Upload (outcomes : Nat → AttemptOutcome) : UploadResult :=
  uploadLoop outcomes (maxRetries + 1) 0 ""

end Storage

/-! ## Async poller (`internal/services/xai_video.go`) -/

namespace XaiVideo

/-- `xaiInitialDelay` in seconds: wait before the first poll. -/
def xaiInitialDelaySec : Nat := 20

/-- `xaiPollInterval` in seconds: sleep between polls. -/
def xaiPollIntervalSec : Nat := 15

/-- `xaiMaxPollDuration` in seconds (6 minutes). -/
def xaiMaxPollDurationSec : Nat := 360

/-- The nested `video` object of a completed generation response. -/
structure XaiVideoOutput where
  url : String
  duration : Nat
deriving DecidableEq, Repr

/-- The parsed `xaiVideoResult` returned by one `getVideoResult` call:
`status` is `"pending"`, `"failed"`, or `""` (completed); `video` is
present exactly when the generation completed. -/
structure XaiVideoResult where
  status : String
  video : Option XaiVideoOutput
  errMsg : String
deriving DecidableEq, Repr

/-- Outcome of `pollForResult`, with the number of polls performed and,
for the timeout case, the elapsed seconds at which the deadline check
fired. -/
inductive PollOutcome where
  | ok (video : XaiVideoOutput) (polls : Nat)
  | providerFailed (msg : String) (polls : Nat)
  | timedOut (polls : Nat) (elapsedSec : Nat)
  | pollRequestFailed (msg : String) (polls : Nat)
  | fuelOut (polls : Nat)
deriving DecidableEq, Repr

/-- Error message chosen for a provider-reported failure (`result.Error`,
or `"unknown error"` when empty). -/
def failReason (r : XaiVideoResult) : String :=
  if r.errMsg = "" then "unknown error" else r.errMsg

/-- The polling loop of `pollForResult`.  `responses pollIdx` is what the
`pollIdx`-th `getVideoResult` call parses (0-based); `now` is the seconds
elapsed since `pollForResult` was entered (polls themselves are modelled
as instantaneous, so time advances only through the sleeps); the deadline
is `now > xaiMaxPollDurationSec`, mirroring `time.Now().After(deadline)`.
The second component of the result collects the inter-poll sleeps
performed, in order.  `fuel` bounds the recursion; every run from the
entry point exhausts the deadline long before the fuel (`fuelOut` is
unreachable from `pollForResult`). -/
def pollLoop (responses : Nat → Except String XaiVideoResult) :
    Nat → Nat → Nat → PollOutcome × List Nat
  | 0, polls, _ => (.fuelOut polls, [])
  | fuel + 1, polls, now =>
      if xaiMaxPollDurationSec < now then
        (.timedOut polls now, [])
      else
        match responses polls with
        | .error m => (.pollRequestFailed m (polls + 1), [])
        | .ok r =>
            match r.video with
            | some v =>
                if v.url ≠ "" then
                  (.ok v (polls + 1), [])
                else
                  if r.status = "failed" then
                    (.providerFailed (failReason r) (polls + 1), [])
                  else
                    let rest := pollLoop responses fuel (polls + 1) (now + xaiPollIntervalSec)
                    (rest.1, xaiPollIntervalSec :: rest.2)
            | none =>
                if r.status = "failed" then
                  (.providerFailed (failReason r) (polls + 1), [])
                else
                  let rest := pollLoop responses fuel (polls + 1) (now + xaiPollIntervalSec)
                  (rest.1, xaiPollIntervalSec :: rest.2)

/-- `pollForResult`: sleep `xaiInitialDelay`, then loop.  The caller's
context is modelled as never cancelled.  100 units of fuel are far more
than the 24 iterations the 6-minute deadline admits. -/
def pollForResult (responses : Nat → Except String XaiVideoResult) :
    PollOutcome × List Nat :=
  pollLoop responses 100 0 xaiInitialDelaySec

/-- A still-pending poll response: `{"status":"pending"}` parses to a
result with no video object. -/
def pendingResult : XaiVideoResult := ⟨"pending", none, ""⟩

/-- A completed poll response: a `video` object with a URL and no
`status` field. -/
def completedResult (url : String) (duration : Nat) : XaiVideoResult :=
  ⟨"", some ⟨url, duration⟩, ""⟩

/-- A provider that reports pending for the first `k` polls and completed
from the `(k+1)`-th poll on. -/
def pendThenComplete (k : Nat) (url : String) (duration : Nat) :
    Nat → Except String XaiVideoResult :=
  fun i => if i < k then .ok pendingResult else .ok (completedResult url duration)

/-- A provider that never completes. -/
def pendForever : Nat → Except String XaiVideoResult :=
  fun _ => .ok pendingResult

end XaiVideo

/-! ## Resource semaphore pool (worker `withSemaphore` and the buffered
channels created in `worker.New`) -/

namespace Semaphore

/-- How the function passed to `withSemaphore` ends: normal return,
error return, or a Go panic unwinding through it. -/
inductive FnOutcome where
  | ok
  | err (msg : String)
  | panicked
deriving DecidableEq, Repr

/-- One `withSemaphore` call, described by whether the caller's context
was cancelled while it waited in the `select`, and by how `fn` ends if it
runs. -/
structure SlotCall where
  cancelledWhileWaiting : Bool
  fn : FnOutcome
deriving DecidableEq, Repr

/-- Observable effects of one `withSemaphore` call.  `result = none`
models a panic propagating out of the call (no return value). -/
structure SlotEffect where
  ran : Bool
  acquired : Bool
  released : Bool
  result : Option (Except String Unit)
deriving Repr

/-- `withSemaphore` from the worker: the `select` either acquires a slot
or observes `ctx.Done()`; after acquisition `defer func() { <-sem }()`
releases the slot on every exit path, including a panic in `fn`. -/
def withSemaphore (label : String) (c : SlotCall) : SlotEffect :=
  if c.cancelledWhileWaiting then
    { ran := false, acquired := false, released := false,
      result := some (.error (label ++ " cancelled while waiting for slot: context canceled")) }
  else
    { ran := true, acquired := true, released := true,
      result :=
        match c.fn with
        | .ok => some (.ok ())
        | .err m => some (.error m)
        | .panicked => none }

/-- Phase of one concurrent `withSemaphore` caller on a shared semaphore:
still waiting in the `select`, holding a slot and running `fn`, or done
(slot released). -/
inductive CallerPhase where
  | waiting
  | running
  | finished
deriving DecidableEq, Repr

/-- State of one semaphore (`make(chan struct{}, cap)`) together with the
callers contending for it. -/
structure PoolState where
  cap : Nat
  callers : List CallerPhase
deriving DecidableEq, Repr

/-- Number of callers currently holding a slot, i.e. the number of
elements buffered in the channel. -/
def runningCount (s : PoolState) : Nat := s.callers.count .running

/-- Interleaving semantics of the semaphore channel: a buffered channel
send (`sem <- struct{}{}`) succeeds only while fewer than `cap` tokens
are buffered, and a receive (`<-sem`) frees one token.  Each step changes
one caller's phase. -/
inductive PoolStep : PoolState → PoolState → Prop where
  | acquire (cap : Nat) (pre post : List CallerPhase)
      (hfree : (pre ++ CallerPhase.waiting :: post).count CallerPhase.running < cap) :
      PoolStep ⟨cap, pre ++ CallerPhase.waiting :: post⟩
        ⟨cap, pre ++ CallerPhase.running :: post⟩
  | release (cap : Nat) (pre post : List CallerPhase) :
      PoolStep ⟨cap, pre ++ CallerPhase.running :: post⟩
        ⟨cap, pre ++ CallerPhase.finished :: post⟩

/-- Reachability from `n` callers all waiting on a capacity-`cap`
semaphore. -/
def PoolReachable (cap n : Nat) (s : PoolState) : Prop :=
  Relation.ReflTransGen PoolStep ⟨cap, List.replicate n CallerPhase.waiting⟩ s

end Semaphore

/-! ## Clip processor (worker `handleProcessClip` / `renderClip`) -/

namespace ClipProc

/-- A clip-row status write performed by the handler, one constructor per
`internal/db/projects.go` write used by clip processing:
`UpdateClipImage` (sets `imaged`), `UpdateClipAudio` (sets `voiced`),
`UpdateClipVideo` (sets `rendered`), `UpdateClipError` (sets `failed`
and records the message). -/
inductive ClipWrite where
  | image
  | audio
  | video
  | error (msg : String)
deriving DecidableEq, Repr

/-- Status persisted by each write. -/
def writeStatus : ClipWrite → ClipStatus
  | .image => .imaged
  | .audio => .voiced
  | .video => .rendered
  | .error _ => .failed

/-- Outcomes of every external or DB call made while processing one clip.
`.ok`/`.error` mirrors each Go call returning `nil` or an error; the
payloads are opaque identifiers standing for the produced bytes. -/
structure ClipEnv where
  imageGen : Except String Nat
  imageUpload : Except String Unit
  imageAssetInsert : Except String Unit
  imageClipUpdate : Except String Unit
  xaiConfigured : Bool
  xaiGen : Except String Nat
  tts : Except String (Nat × Nat)
  audioUpload : Except String Unit
  audioAssetInsert : Except String Unit
  audioClipUpdate : Except String Unit
  transcribe : Except String Nat
  renderExec : Except String Nat
  videoUpload : Except String Unit
  videoAssetInsert : Except String Unit
  videoClipUpdate : Except String Unit
deriving Repr

/-- Pipeline A (visual): image generation → upload → asset insert →
`UpdateClipImage` → optional xAI video generation (non-fatal).  Returns
the clip-row writes it performs, in order, and its errgroup result
(`some bytes` = AI video available, `none` = Ken Burns fallback). -/
def pipelineA (env : ClipEnv) : List ClipWrite × Except String (Option Nat) :=
  match env.imageGen with
  | .error e =>
      ([.error ("Image generation failed: " ++ e)],
       .error ("failed to generate image: " ++ e))
  | .ok _ =>
      match env.imageUpload with
      | .error e => ([], .error ("failed to upload image: " ++ e))
      | .ok _ =>
          match env.imageAssetInsert with
          | .error e => ([], .error ("failed to save image asset: " ++ e))
          | .ok _ =>
              match env.imageClipUpdate with
              | .error e => ([], .error ("failed to update clip image: " ++ e))
              | .ok _ =>
                  if env.xaiConfigured then
                    match env.xaiGen with
                    | .error _ => ([.image], .ok none)
                    | .ok vid => ([.image], .ok (some vid))
                  else ([.image], .ok none)

/-- Pipeline B (audio): TTS → upload → asset insert → `UpdateClipAudio`
→ Whisper transcription (non-fatal).  Returns its clip-row writes and
its errgroup result (audio id plus optional word timestamps). -/
def pipelineB (env : ClipEnv) : List ClipWrite × Except String (Nat × Option Nat) :=
  match env.tts with
  | .error e => ([.error ("TTS failed: " ++ e)], .error ("failed to generate audio: " ++ e))
  | .ok (audioData, _) =>
      match env.audioUpload with
      | .error e => ([], .error ("failed to upload audio: " ++ e))
      | .ok _ =>
          match env.audioAssetInsert with
          | .error e => ([], .error ("failed to save audio asset: " ++ e))
          | .ok _ =>
              match env.audioClipUpdate with
              | .error e => ([], .error ("failed to update clip audio: " ++ e))
              | .ok _ =>
                  match env.transcribe with
                  | .error _ => ([.audio], .ok (audioData, none))
                  | .ok w => ([.audio], .ok (audioData, some w))

/-- Which ffmpeg path `renderClip` takes. -/
inductive RenderPath where
  | aiVideo
  | kenBurns
deriving DecidableEq, Repr

/-- `renderClip` inside its render-semaphore slot: ffmpeg render on the
path selected by `aiVideoData`, then upload, asset insert and
`UpdateClipVideo`.  Returns the result seen by `handleProcessClip`. -/
def renderClip (env : ClipEnv) (_aiVideoData : Option Nat) :
    List ClipWrite × Except String Unit :=
  match env.renderExec with
  | .error e => ([], .error e)
  | .ok _ =>
      match env.videoUpload with
      | .error e => ([], .error ("failed to upload clip video: " ++ e))
      | .ok _ =>
          match env.videoAssetInsert with
          | .error e => ([], .error ("failed to save video asset: " ++ e))
          | .ok _ =>
              match env.videoClipUpdate with
              | .error e => ([], .error ("failed to update clip video: " ++ e))
              | .ok _ => ([.video], .ok ())

/-- The render phase of `handleProcessClip`: on a `renderClip` error the
handler itself calls `UpdateClipError("Render failed: ...")`. -/
def renderPhase (env : ClipEnv) (aiVideoData : Option Nat) :
    List ClipWrite × Except String Unit :=
  match renderClip env aiVideoData with
  | (ws, .ok _) => (ws, .ok ())
  | (ws, .error e) =>
      (ws ++ [.error ("Render failed: " ++ e)], .error ("failed to render clip: " ++ e))

/-- All interleavings of two event sequences.  The two clip pipelines run
in separate goroutines with no ordering between their DB writes, so any
interleaving of their write sequences can be persisted. -/
def interleavings : List α → List α → List (List α)
  | [], ys => [ys]
  | x :: xs, [] => [x :: xs]
  | x :: xs, y :: ys =>
      (interleavings xs (y :: ys)).map (x :: ·) ++
        (interleavings (x :: xs) ys).map (y :: ·)
termination_by xs ys => xs.length + ys.length

/-- The possible sequences of clip-row status writes of one
`handleProcessClip` run: any interleaving of the two pipelines' writes,
followed by the render phase's writes when both pipelines succeeded.
(When a pipeline fails, errgroup cancellation can additionally suppress
a suffix of the sibling's writes; no trace here marks a status the real
run could not.) -/
def clipStatusTraces (env : ClipEnv) : List (List ClipWrite) :=
  match pipelineA env, pipelineB env with
  | (aw, .ok av), (bw, .ok _) =>
      (interleavings aw bw).map (· ++ (renderPhase env av).1)
  | (aw, _), (bw, _) => interleavings aw bw

/-- Whether the render step runs at all: `g.Wait()` must return nil. -/
def renderRan (env : ClipEnv) : Bool :=
  match (pipelineA env).2, (pipelineB env).2 with
  | .ok _, .ok _ => true
  | _, _ => false

/-- The ffmpeg path taken when the render step runs. -/
def clipRenderPath (env : ClipEnv) : Option RenderPath :=
  match (pipelineA env).2, (pipelineB env).2 with
  | .ok av, .ok _ => some (if av.isSome then .aiVideo else .kenBurns)
  | _, _ => none

/-- The error/success result `handleProcessClip` returns to the
dispatcher. -/
def clipResult (env : ClipEnv) : Except String Unit :=
  match (pipelineA env).2, (pipelineB env).2 with
  | .error e, _ => .error ("clip processing failed: " ++ e)
  | .ok _, .error e => .error ("clip processing failed: " ++ e)
  | .ok av, .ok _ => (renderPhase env av).2

/-- An environment in which every call succeeds (payload ids are
arbitrary). -/
def envOK : ClipEnv :=
  { imageGen := .ok 1, imageUpload := .ok (), imageAssetInsert := .ok ()
    imageClipUpdate := .ok (), xaiConfigured := true, xaiGen := .ok 2
    tts := .ok (3, 4500), audioUpload := .ok (), audioAssetInsert := .ok ()
    audioClipUpdate := .ok (), transcribe := .ok 4, renderExec := .ok 5
    videoUpload := .ok (), videoAssetInsert := .ok (), videoClipUpdate := .ok () }

end ClipProc

/-! ## Project-level state machine

An abstract small-step model of the persisted project/clip state as the
worker mutates it.  `handleGeneratePlan` creates the clip rows one at a
time inside its loop, enqueueing each clip's `process_clip` job
immediately, while clip workers already run concurrently; only after the
loop does it write project status `generating`.  Each created clip is
paired with a flag saying whether its (unique) `process_clip` job is
still executing: while it is, the handler may write `voiced`, `imaged`
or `failed` (in any interleaving of the two sub-pipelines), and
`UpdateClipVideo` writing `rendered` is always the handler's final clip
write.  `render_final` is enqueued after `AreAllClipsRendered` observes
zero clips whose status differs from `rendered` — a count over the rows
inserted so far, which says nothing about clips the plan handler has yet
to create.  `SetProjectFinalVideo` — the only write of
`ProjectStatus.completed` anywhere in the repository — runs at the end
of a `render_final` job; it is modelled with no guard of its own
because rows created between `handleRenderFinal`'s initial clip read
and its final status write are never re-checked.  The relation
over-approximates the real interleavings (any order of creations,
mid-run writes and the unguarded final commit is allowed), so an
invariant proved over it holds of the real runs. -/

namespace System

/-- Persisted state: project status, one `(status, jobActive)` pair per
created clip row in creation (= `clip_index`) order, the number of clips
`handleGeneratePlan` has yet to create, whether a `render_final` job has
been enqueued, and — as ghost history — how many clip rows existed when
`AreAllClipsRendered` was last observed true at an enqueue. -/
structure SysState where
  project : ProjectStatus
  clips : List (ClipStatus × Bool)
  planPending : Nat
  finalEnqueued : Bool
  enqueuedCount : Option Nat
deriving DecidableEq, Repr

/-- One database write of the pipeline. -/
inductive SysStep : SysState → SysState → Prop where
  | createClip (proj : ProjectStatus) (cl : List (ClipStatus × Bool)) (k : Nat)
      (fe : Bool) (ec : Option Nat) :
      SysStep ⟨proj, cl, k + 1, fe, ec⟩
        ⟨proj, cl ++ [(ClipStatus.pending, true)], k, fe, ec⟩
  | planGenerating (proj : ProjectStatus) (cl : List (ClipStatus × Bool))
      (fe : Bool) (ec : Option Nat) :
      SysStep ⟨proj, cl, 0, fe, ec⟩ ⟨ProjectStatus.generating, cl, 0, fe, ec⟩
  | midWrite (proj : ProjectStatus) (k : Nat) (fe : Bool) (ec : Option Nat)
      (pre post : List (ClipStatus × Bool)) (c st : ClipStatus)
      (hst : st = .voiced ∨ st = .imaged ∨ st = .failed) :
      SysStep ⟨proj, pre ++ (c, true) :: post, k, fe, ec⟩
        ⟨proj, pre ++ (st, true) :: post, k, fe, ec⟩
  | finishRendered (proj : ProjectStatus) (k : Nat) (fe : Bool) (ec : Option Nat)
      (pre post : List (ClipStatus × Bool)) (c : ClipStatus) :
      SysStep ⟨proj, pre ++ (c, true) :: post, k, fe, ec⟩
        ⟨proj, pre ++ (ClipStatus.rendered, false) :: post, k, fe, ec⟩
  | finishAborted (proj : ProjectStatus) (k : Nat) (fe : Bool) (ec : Option Nat)
      (pre post : List (ClipStatus × Bool)) (c : ClipStatus) :
      SysStep ⟨proj, pre ++ (c, true) :: post, k, fe, ec⟩
        ⟨proj, pre ++ (c, false) :: post, k, fe, ec⟩
  | enqueueFinal (proj : ProjectStatus) (cl : List (ClipStatus × Bool)) (k : Nat)
      (fe : Bool) (ec : Option Nat)
      (hall : ∀ p ∈ cl, p.1 = ClipStatus.rendered) :
      SysStep ⟨proj, cl, k, fe, ec⟩
        ⟨ProjectStatus.rendering, cl, k, true, some cl.length⟩
  | projectError (proj : ProjectStatus) (cl : List (ClipStatus × Bool)) (k : Nat)
      (fe : Bool) (ec : Option Nat) :
      SysStep ⟨proj, cl, k, fe, ec⟩ ⟨ProjectStatus.failed, cl, k, fe, ec⟩
  | renderFinalOk (proj : ProjectStatus) (cl : List (ClipStatus × Bool)) (k : Nat)
      (ec : Option Nat) :
      SysStep ⟨proj, cl, k, true, ec⟩ ⟨ProjectStatus.completed, cl, k, true, ec⟩

/-- Initial state: `handleGeneratePlan` has marked the project
`planning` and received a plan with `n` clips, none created yet. -/
def initState (n : Nat) : SysState :=
  ⟨.planning, [], n, false, none⟩

/-- Reachability of persisted states. -/
def Reachable (n : Nat) (s : SysState) : Prop :=
  Relation.ReflTransGen SysStep (initState n) s

end System

/-! ## Final render (`handleRenderFinal`, `GetProjectClips`,
`SetProjectFinalVideo`) -/

namespace FinalRender

/-- The clip-row fields `handleRenderFinal` reads. -/
structure ClipRow where
  clipIndex : Nat
  videoAssetId : Option Nat
deriving DecidableEq, Repr

/-- The `ORDER BY clip_index` relation of `GetProjectClips`. -/
def byClipIndex (a b : ClipRow) : Prop :=
  a.clipIndex ≤ b.clipIndex

instance : DecidableRel byClipIndex := fun x y => Nat.decLe x.clipIndex y.clipIndex

/-- `GetProjectClips`: the store returns the project's clips ordered by
`clip_index` ascending (`ORDER BY clip_index`). -/
def GetProjectClips (stored : List ClipRow) : List ClipRow :=
  stored.insertionSort byClipIndex

/-- The body of `handleRenderFinal`'s clip loop: walk the clips in the
given order, failing on the first clip without a
`clip_video_asset_id`, otherwise collecting the downloaded videos
(named by their asset ids) in that order. -/
def collectClipVideosGo : List ClipRow → Except String (List Nat)
  | [] => .ok []
  | c :: t =>
      match c.videoAssetId with
      | none => .error ("clip " ++ toString c.clipIndex ++ " has no video")
      | some a =>
          match collectClipVideosGo t with
          | .error e => .error e
          | .ok ps => .ok (a :: ps)

/-- The clip-video collection loop of `handleRenderFinal`, walking the
clips in `GetProjectClips` order — on success the result is exactly the
ordered path list later passed to `ConcatenateClips`. -/
def collectClipVideos (stored : List ClipRow) : Except String (List Nat) :=
  collectClipVideosGo (GetProjectClips stored)

/-- An asset row appended by `handleRenderFinal`. -/
structure AssetRow where
  id : Nat
  type : String
  storagePath : String
deriving DecidableEq, Repr

/-- The project-row fields `handleRenderFinal` writes. -/
structure ProjectRow where
  status : ProjectStatus
  finalVideoAssetId : Option Nat
deriving DecidableEq, Repr

/-- Database-plus-storage state as `handleRenderFinal` sees it.
`storageObjects` maps storage paths to content ids. -/
structure RFState where
  project : ProjectRow
  clips : List ClipRow
  assets : List AssetRow
  storageObjects : List (String × Nat)
deriving DecidableEq, Repr

/-- `Upload` with the `x-upsert: true` header: overwrite the object at
`path` if it exists, else create it. -/
def upsertObject : List (String × Nat) → String → Nat → List (String × Nat)
  | [], path, data => [(path, data)]
  | (q, x) :: t, path, data =>
      if q = path then (path, data) :: t else (q, x) :: upsertObject t path data

/-- `GenerateStoragePath` (`filepath.Join(projectID.String(), filename)`). -/
def GenerateStoragePath (projectID filename : String) : String :=
  projectID ++ "/" ++ filename

/-- `handleRenderFinal`: list clips by `clip_index`, require every clip
to hold a video asset, concatenate the downloaded videos (abstracted to
`finalData`), upload the result to the fixed per-project path with
upsert, append a new final-video asset row, and finish with
`SetProjectFinalVideo`, which sets `final_video_asset_id` and status
`completed`.  The handler never inspects `project.status`.  External
download/concat/music-mix failures are out of scope (their success is
what `finalData` stands for). -/
def handleRenderFinal (projectID : String) (newAssetId finalData : Nat)
    (st : RFState) : Except String RFState :=
  match collectClipVideos st.clips with
  | .error e => .error e
  | .ok _ =>
      let path := GenerateStoragePath projectID "final.mp4"
      .ok { project := { status := .completed, finalVideoAssetId := some newAssetId }
            clips := st.clips
            assets := st.assets ++ [⟨newAssetId, "final_video", path⟩]
            storageObjects := upsertObject st.storageObjects path finalData }

end FinalRender

/-! ## Theorems -/

namespace Storage

/-- If attempts `start, …, start+k-1` fail retryably and attempt
`start+k` succeeds, the loop returns `success` counting `start+k+1`
attempts. -/
theorem uploadLoop_success (outcomes : Nat → AttemptOutcome) :
    ∀ k fuel start lastErr, k < fuel →
      (∀ a, start ≤ a → a < start + k → attemptRetryable (outcomes a) = true) →
      attemptSuccess (outcomes (start + k)) = true →
      uploadLoop outcomes fuel start lastErr = .success (start + k + 1) := by
  intro k
  induction k with
  | zero =>
      intro fuel start lastErr hfuel _ hsucc
      obtain ⟨f, rfl⟩ : ∃ f, fuel = f + 1 := ⟨fuel - 1, by omega⟩
      simp only [uploadLoop]
      cases h : outcomes start with
      | netErr m => rw [Nat.add_zero] at hsucc; rw [h] at hsucc; simp [attemptSuccess] at hsucc
      | http st body =>
          rw [Nat.add_zero] at hsucc; rw [h] at hsucc
          simp only [attemptSuccess] at hsucc
          simp [hsucc]
  | succ k ih =>
      intro fuel start lastErr hfuel hretry hsucc
      obtain ⟨f, rfl⟩ : ∃ f, fuel = f + 1 := ⟨fuel - 1, by omega⟩
      have hr : attemptRetryable (outcomes start) = true := hretry start le_rfl (by omega)
      simp only [uploadLoop]
      cases h : outcomes start with
      | netErr m =>
          rw [h] at hr
          simp only [attemptRetryable] at hr
          simp only [hr, if_true]
          have := ih f (start + 1) ("failed to upload: " ++ m) (by omega)
            (fun a ha1 ha2 => hretry a (by omega) (by omega))
            (by rw [show start + 1 + k = start + (k + 1) by omega]; exact hsucc)
          rw [this]; congr 1; omega
      | http st body =>
          rw [h] at hr
          simp only [attemptRetryable, Bool.and_eq_true, Bool.not_eq_true'] at hr
          simp only [hr.1, hr.2, Bool.false_eq_true, if_false, if_true]
          have := ih f (start + 1)
            ("upload failed with status " ++ toString st ++ ": " ++ body) (by omega)
            (fun a ha1 ha2 => hretry a (by omega) (by omega))
            (by rw [show start + 1 + k = start + (k + 1) by omega]; exact hsucc)
          rw [this]; congr 1; omega

/-- If every attempt in the remaining window fails retryably, the loop
exhausts and wraps the last attempt's error. -/
theorem uploadLoop_exhausted (outcomes : Nat → AttemptOutcome) :
    ∀ fuel start lastErr, 0 < fuel →
      (∀ a, start ≤ a → a < start + fuel → attemptRetryable (outcomes a) = true) →
      uploadLoop outcomes fuel start lastErr =
        .exhausted (maxRetries + 1)
          ("upload failed after " ++ toString (maxRetries + 1) ++ " attempts: " ++
            attemptErr (outcomes (start + fuel - 1))) := by
  intro fuel
  induction fuel with
  | zero => intro start lastErr h; omega
  | succ f ih =>
      intro start lastErr _ hretry
      have hr : attemptRetryable (outcomes start) = true := hretry start le_rfl (by omega)
      simp only [uploadLoop]
      cases h : outcomes start with
      | netErr m =>
          rw [h] at hr
          simp only [attemptRetryable] at hr
          simp only [hr, if_true]
          rcases Nat.eq_zero_or_pos f with hf | hf
          · subst hf
            simp only [uploadLoop]
            rw [show start + (0 + 1) - 1 = start by omega, h]
            rfl
          · have := ih (start + 1) ("failed to upload: " ++ m) hf
              (fun a ha1 ha2 => hretry a (by omega) (by omega))
            rw [this, show start + 1 + f - 1 = start + (f + 1) - 1 by omega]
      | http st body =>
          rw [h] at hr
          simp only [attemptRetryable, Bool.and_eq_true, Bool.not_eq_true'] at hr
          simp only [hr.1, hr.2, Bool.false_eq_true, if_false, if_true]
          rcases Nat.eq_zero_or_pos f with hf | hf
          · subst hf
            simp only [uploadLoop]
            rw [show start + (0 + 1) - 1 = start by omega, h]
            rfl
          · have := ih (start + 1)
              ("upload failed with status " ++ toString st ++ ": " ++ body) hf
              (fun a ha1 ha2 => hretry a (by omega) (by omega))
            rw [this, show start + 1 + f - 1 = start + (f + 1) - 1 by omega]

/-- C3: for `Upload`/`Download` against the object store: (1) N-1
retryable failures followed by a success yield success after exactly N
attempts (N ≤ 5); (2) the delay before the n-th retry is
`1s * 2^(n-1)` capped at 30s plus up to 25% jitter; (3) a non-retryable
HTTP status on the first attempt returns immediately with no further
attempts; (4) five retryable failures exhaust the budget and return the
last error wrapped with the attempt count. -/
theorem C3_retrying_transport :
    (∀ (outcomes : Nat → AttemptOutcome) (N : Nat), 1 ≤ N → N ≤ 5 →
      (∀ a, a < N - 1 → attemptRetryable (outcomes a) = true) →
      attemptSuccess (outcomes (N - 1)) = true →
      Upload outcomes = .success N) ∧
    (∀ (n : Nat) (j : ℚ), 0 ≤ j → j ≤ 1 →
      retryDelay n j = min ((2 : ℚ) ^ (n - 1)) 30 * (1 + j / 4) ∧
      min ((2 : ℚ) ^ (n - 1)) 30 ≤ retryDelay n j ∧
      retryDelay n j ≤ min ((2 : ℚ) ^ (n - 1)) 30 * (5 / 4)) ∧
    (∀ (outcomes : Nat → AttemptOutcome) (st : Nat) (body : String),
      outcomes 0 = .http st body → (st == 200 || st == 201) = false →
      isRetryableStatus st = false →
      Upload outcomes =
        .fatal 1 ("upload failed with status " ++ toString st ++ ": " ++ body)) ∧
    (∀ (outcomes : Nat → AttemptOutcome),
      (∀ a, a < 5 → attemptRetryable (outcomes a) = true) →
      Upload outcomes =
        .exhausted (maxRetries + 1)
          ("upload failed after " ++ toString (maxRetries + 1) ++ " attempts: " ++
            attemptErr (outcomes 4))) := by
  refine ⟨?_, ?_, ?_, ?_⟩
  · intro outcomes N h1 h5 hr hs
    have := uploadLoop_success outcomes (N - 1) 5 0 "" (by omega)
      (fun a _ ha => hr a (by omega)) (by simpa using hs)
    simp only [Upload, maxRetries]
    rw [this]
    congr 1
    omega
  · intro n j hj0 hj1
    have hd0 : (0 : ℚ) ≤ min ((2 : ℚ) ^ (n - 1)) 30 :=
      le_min (by positivity) (by norm_num)
    refine ⟨?_, ?_, ?_⟩
    · simp only [retryDelay, baseRetryDelaySec, maxRetryDelaySec, one_mul]
      ring
    · simp only [retryDelay, baseRetryDelaySec, maxRetryDelaySec, one_mul]
      nlinarith [mul_nonneg (mul_nonneg hd0 (by norm_num : (0:ℚ) ≤ 1 / 4)) hj0]
    · simp only [retryDelay, baseRetryDelaySec, maxRetryDelaySec, one_mul]
      nlinarith [mul_le_mul_of_nonneg_left hj1
        (mul_nonneg hd0 (by norm_num : (0:ℚ) ≤ 1 / 4))]
  · intro outcomes st body h0 hne hnr
    simp only [Upload, maxRetries, uploadLoop]
    rw [h0]
    simp [hne, hnr]
  · intro outcomes hr
    have := uploadLoop_exhausted outcomes 5 0 "" (by omega)
      (fun a _ ha => hr a (by omega))
    simp only [Upload, maxRetries]
    rw [this]
    norm_num [maxRetries]

/-- Witness for C3: concrete instantiations of each conjunct.  Two
connection resets then a 200 succeed on the third attempt; a 404 fails
fatally on the first attempt; five 503s exhaust the retry budget. -/
theorem C3_retrying_transport_witness :
    Upload (fun a => if a < 2 then .netErr "connection reset by peer" else .http 200 "") =
      .success 3 ∧
    retryDelay 3 (1 / 2) = min ((2 : ℚ) ^ (3 - 1)) 30 * (1 + (1 / 2) / 4) ∧
    Upload (fun _ => .http 404 "Object not found") =
      .fatal 1 ("upload failed with status " ++ toString 404 ++ ": " ++ "Object not found") ∧
    Upload (fun _ => .http 503 "busy") =
      .exhausted (maxRetries + 1)
        ("upload failed after " ++ toString (maxRetries + 1) ++ " attempts: " ++
          attemptErr ((fun _ => AttemptOutcome.http 503 "busy") 4)) := by
  refine ⟨?_, ?_, ?_, ?_⟩
  · exact C3_retrying_transport.1 _ 3 (by norm_num) (by norm_num)
      (fun a ha => by interval_cases a <;> decide) (by decide)
  · exact (C3_retrying_transport.2.1 3 (1 / 2) (by norm_num) (by norm_num)).1
  · exact C3_retrying_transport.2.2.1 _ 404 "Object not found" rfl (by decide) (by decide)
  · exact C3_retrying_transport.2.2.2 _ (fun a _ => by decide)

end Storage

namespace XaiVideo

/-- Every inter-poll sleep performed by the polling loop is the fixed
`xaiPollInterval` (15 s). -/
theorem pollLoop_sleeps_const (responses : Nat → Except String XaiVideoResult) :
    ∀ fuel polls now s, s ∈ (pollLoop responses fuel polls now).2 →
      s = xaiPollIntervalSec := by
  intro fuel
  induction fuel with
  | zero => intro polls now s hs; simp [pollLoop] at hs
  | succ f ih =>
      intro polls now s hs
      simp only [pollLoop] at hs
      by_cases hnow : xaiMaxPollDurationSec < now
      · simp [hnow] at hs
      · simp only [if_neg hnow] at hs
        cases hresp : responses polls with
        | error m => simp [hresp] at hs
        | ok r =>
            simp only [hresp] at hs
            cases hv : r.video with
            | some v =>
                simp only [hv] at hs
                by_cases hurl : v.url ≠ ""
                · simp [hurl] at hs
                · simp only [if_neg hurl] at hs
                  by_cases hf : r.status = "failed"
                  · simp [hf] at hs
                  · simp only [if_neg hf, List.mem_cons] at hs
                    rcases hs with hs | hs
                    · exact hs
                    · exact ih _ _ _ hs
            | none =>
                simp only [hv] at hs
                by_cases hf : r.status = "failed"
                · simp [hf] at hs
                · simp only [if_neg hf, List.mem_cons] at hs
                  rcases hs with hs | hs
                  · exact hs
                  · exact ih _ _ _ hs

/-- A provider that is still pending for polls `polls … polls+k-1` and
completed at poll `polls+k`: the loop performs `k+1` further polls, ends
with the completed video, and sleeps `k` constant intervals — provided
the deadline is not hit first. -/
theorem pollLoop_pendThenComplete (url : String) (hurl : url ≠ "") (duration : Nat) :
    ∀ k polls now fuel,
      now + xaiPollIntervalSec * k ≤ xaiMaxPollDurationSec → k + 1 ≤ fuel →
      pollLoop (pendThenComplete (polls + k) url duration) fuel polls now =
        (.ok ⟨url, duration⟩ (polls + k + 1), List.replicate k xaiPollIntervalSec) := by
  intro k
  induction k with
  | zero =>
      intro polls now fuel hdl hf
      obtain ⟨f, rfl⟩ : ∃ f, fuel = f + 1 := ⟨fuel - 1, by omega⟩
      simp only [pollLoop]
      rw [if_neg (by simp only [xaiMaxPollDurationSec] at hdl ⊢; omega)]
      simp [pendThenComplete, completedResult, hurl]
  | succ k ih =>
      intro polls now fuel hdl hf
      obtain ⟨f, rfl⟩ : ∃ f, fuel = f + 1 := ⟨fuel - 1, by omega⟩
      have hpend : pendThenComplete (polls + (k + 1)) url duration polls = .ok pendingResult := by
        unfold pendThenComplete
        rw [if_pos (by omega)]
      simp only [pollLoop, hpend, pendingResult]
      rw [if_neg (by simp only [xaiMaxPollDurationSec, xaiPollIntervalSec] at hdl ⊢; omega),
        if_neg (by decide : ¬ ("pending" = "failed"))]
      have harg : polls + (k + 1) = (polls + 1) + k := by omega
      rw [harg, ih (polls + 1) (now + xaiPollIntervalSec) f
        (by simp only [xaiPollIntervalSec] at hdl ⊢; omega) (by omega)]
      simp [List.replicate_succ, show polls + 1 + k + 1 = polls + (k + 1) + 1 from by omega]

/-- Any `timedOut` outcome of the polling loop carries an elapsed time
strictly past the 6-minute deadline: the loop can never time out early. -/
theorem pollLoop_timeout_late (responses : Nat → Except String XaiVideoResult) :
    ∀ fuel polls now p e, (pollLoop responses fuel polls now).1 = .timedOut p e →
      xaiMaxPollDurationSec < e := by
  intro fuel
  induction fuel with
  | zero => intro polls now p e h; simp [pollLoop] at h
  | succ f ih =>
      intro polls now p e h
      simp only [pollLoop] at h
      by_cases hnow : xaiMaxPollDurationSec < now
      · simp only [if_pos hnow] at h
        cases h
        exact hnow
      · simp only [if_neg hnow] at h
        cases hresp : responses polls with
        | error m => simp [hresp] at h
        | ok r =>
            simp only [hresp] at h
            cases hv : r.video with
            | some v =>
                simp only [hv] at h
                by_cases hurl : v.url ≠ ""
                · simp [hurl] at h
                · simp only [if_neg hurl] at h
                  by_cases hfail : r.status = "failed"
                  · simp [hfail] at h
                  · simp only [if_neg hfail] at h
                    exact ih _ _ _ _ h
            | none =>
                simp only [hv] at h
                by_cases hfail : r.status = "failed"
                · simp [hfail] at h
                · simp only [if_neg hfail] at h
                  exact ih _ _ _ _ h

/-- A provider response that keeps the loop waiting: no video object and
no `"failed"` status. -/
def stillPendingResponse (x : Except String XaiVideoResult) : Prop :=
  ∃ r, x = .ok r ∧ r.video = none ∧ r.status ≠ "failed"

/-- With a never-completing provider and enough fuel to reach the
deadline, the loop ends in a timeout. -/
theorem pollLoop_never_complete (responses : Nat → Except String XaiVideoResult)
    (hpend : ∀ i, stillPendingResponse (responses i)) :
    ∀ fuel polls now, xaiMaxPollDurationSec < now + xaiPollIntervalSec * fuel →
      ∃ p e, (pollLoop responses (fuel + 1) polls now).1 = .timedOut p e := by
  intro fuel
  induction fuel with
  | zero =>
      intro polls now h
      simp only [xaiPollIntervalSec, Nat.mul_zero, Nat.add_zero] at h
      exact ⟨polls, now, by simp [pollLoop, h]⟩
  | succ f ih =>
      intro polls now h
      by_cases hnow : xaiMaxPollDurationSec < now
      · exact ⟨polls, now, by simp [pollLoop, hnow]⟩
      · obtain ⟨r, hr, hv, hs⟩ := hpend polls
        simp only [pollLoop, if_neg hnow, hr, hv, if_neg hs]
        exact ih (polls + 1) (now + xaiPollIntervalSec)
          (by simp only [xaiPollIntervalSec] at h ⊢; omega)

/-- C4 counterexample: run the xAI poller against a provider that stays
pending.  The observed inter-poll sleeps are 23 constant 15-second
intervals, and no multiplier `m > 1` with a cap above the first interval
reproduces them — the claimed "grow the interval by a fixed multiplier
up to a cap" behaviour does not happen. -/
theorem C4_growth_counterexample :
    (pollForResult pendForever).2 = List.replicate 23 xaiPollIntervalSec ∧
    ¬ ∃ (m cap : ℚ), 1 < m ∧
      (((pollForResult pendForever).2.getD 0 0 : ℚ)) < cap ∧
      ∀ i, i + 1 < (pollForResult pendForever).2.length →
        (((pollForResult pendForever).2.getD (i + 1) 0 : ℚ)) =
          min (((pollForResult pendForever).2.getD i 0 : ℚ) * m) cap := by
  have hrun : (pollForResult pendForever).2 = List.replicate 23 xaiPollIntervalSec := by
    decide
  refine ⟨hrun, ?_⟩
  rintro ⟨m, cap, hm, hcap, hstep⟩
  rw [hrun] at hcap hstep
  have h0 : ((List.replicate 23 xaiPollIntervalSec).getD 0 0 : ℚ) = 15 := by decide
  have h1 : ((List.replicate 23 xaiPollIntervalSec).getD 1 0 : ℚ) = 15 := by decide
  have hlen : 0 + 1 < (List.replicate 23 xaiPollIntervalSec).length := by decide
  have := hstep 0 hlen
  rw [h0, h1] at this
  rw [h0] at hcap
  have hlt : (15 : ℚ) < min (15 * m) cap := lt_min (by nlinarith) hcap
  rw [← this] at hlt
  exact lt_irrefl _ hlt

/-- C4 (amended): after each still-pending poll response the xAI poller
sleeps a fixed constant 15-second interval; the interval never changes
(it neither grows by a multiplier nor resets), hence the inter-poll
delays are trivially non-decreasing and bounded. -/
theorem C4_poll_interval_constant :
    ∀ (responses : Nat → Except String XaiVideoResult) (s : Nat),
      s ∈ (pollForResult responses).2 → s = xaiPollIntervalSec := by
  intro responses s hs
  exact pollLoop_sleeps_const responses 100 0 xaiInitialDelaySec s hs

/-- Witness for the amended C4 at the concrete never-completing
provider: the run performs at least one inter-poll sleep and it equals
the constant interval. -/
theorem C4_poll_interval_constant_witness :
    (pollForResult pendForever).2.getD 0 0 = xaiPollIntervalSec := by
  have h : (pollForResult pendForever).2.getD 0 0 ∈ (pollForResult pendForever).2 := by
    decide
  exact C4_poll_interval_constant pendForever _ h

/-- C5 (amended): (1) if the provider is still pending for the first K
polls and completed on the next poll, the poller performs exactly K+1
polls at constant (hence non-decreasing) intervals and returns the
completed result — provided the (K+1)-th poll still happens before the
6-minute deadline is exceeded, i.e. K ≤ 22 given the 20 s initial delay
and 15 s interval; (2) if the provider never completes, the poller
returns a timeout error (distinct from `providerFailed`) with elapsed
time strictly past the 360 s deadline; (3) no run ever times out at or
before the deadline. -/
theorem C5_poller_behavior :
    (∀ (K : Nat) (url : String) (duration : Nat), url ≠ "" → K ≤ 22 →
      pollForResult (pendThenComplete K url duration) =
        (.ok ⟨url, duration⟩ (K + 1), List.replicate K xaiPollIntervalSec)) ∧
    (∀ responses, (∀ i, stillPendingResponse (responses i)) →
      ∃ p e, (pollForResult responses).1 = .timedOut p e ∧ xaiMaxPollDurationSec < e) ∧
    (∀ responses p e, (pollForResult responses).1 = .timedOut p e →
      xaiMaxPollDurationSec < e) := by
  refine ⟨?_, ?_, ?_⟩
  · intro K url duration hurl hK
    have := pollLoop_pendThenComplete url hurl duration K 0 xaiInitialDelaySec 100
      (by simp only [xaiInitialDelaySec, xaiPollIntervalSec, xaiMaxPollDurationSec]; omega)
      (by omega)
    simpa [pollForResult] using this
  · intro responses hpend
    obtain ⟨p, e, he⟩ := pollLoop_never_complete responses hpend 99 0 xaiInitialDelaySec
      (by simp only [xaiInitialDelaySec, xaiPollIntervalSec, xaiMaxPollDurationSec]; omega)
    refine ⟨p, e, ?_, ?_⟩
    · simpa [pollForResult] using he
    · exact pollLoop_timeout_late responses 100 0 xaiInitialDelaySec p e
        (by simpa [pollForResult] using he)
  · intro responses p e h
    exact pollLoop_timeout_late responses 100 0 xaiInitialDelaySec p e h

/-- C5 counterexample: a provider pending for the first 23 polls and
completed on the 24th.  The claim as stated promises K+1 = 24 polls and
the completed result for every K, but the 6-minute deadline fires first:
the poller performs only 23 polls and returns a timeout. -/
theorem C5_deadline_counterexample :
    pollForResult (pendThenComplete 23 "https://vid" 8) =
      (.timedOut 23 365, List.replicate 23 xaiPollIntervalSec) ∧
    (pollForResult (pendThenComplete 23 "https://vid" 8)).1 ≠
      .ok ⟨"https://vid", 8⟩ 24 := by
  constructor
  · decide
  · decide

/-- Witness for the amended C5: three pending polls then completion
yields exactly four polls and the completed video. -/
theorem C5_poller_behavior_witness :
    pollForResult (pendThenComplete 3 "https://vid" 8) =
      (.ok ⟨"https://vid", 8⟩ 4, List.replicate 3 xaiPollIntervalSec) :=
  C5_poller_behavior.1 3 "https://vid" 8 (by decide) (by norm_num)

end XaiVideo

namespace Semaphore

/-- Counting `running` phases across a split caller list. -/
theorem count_append_cons (x : CallerPhase) (pre post : List CallerPhase) :
    (pre ++ x :: post).count CallerPhase.running =
      pre.count CallerPhase.running + post.count CallerPhase.running +
        (if x = CallerPhase.running then 1 else 0) := by
  simp [List.count_append, List.count_cons]
  omega

/-- Steps never change the semaphore capacity. -/
theorem poolStep_cap {s s' : PoolState} (h : PoolStep s s') : s'.cap = s.cap := by
  cases h <;> rfl

/-- Safety invariant of the pool: along every reachable state the
capacity is preserved and at most `cap` callers hold a slot. -/
theorem poolReachable_inv (cap n : Nat) :
    ∀ s, PoolReachable cap n s → s.cap = cap ∧ runningCount s ≤ cap := by
  intro s h
  induction h with
  | refl =>
      refine ⟨rfl, ?_⟩
      simp [runningCount, List.count_replicate]
  | tail _ hstep ih =>
      obtain ⟨hcap, hcount⟩ := ih
      cases hstep with
      | acquire c pre post hfree =>
          refine ⟨hcap, ?_⟩
          simp only [runningCount, count_append_cons] at hfree hcount ⊢
          simp only [PoolState.cap] at hcap
          subst hcap
          simp at hfree ⊢
          omega
      | release c pre post =>
          refine ⟨hcap, ?_⟩
          simp only [runningCount, count_append_cons] at hcount ⊢
          simp at hcount ⊢
          omega

/-- From a full semaphore the only possible move is a release: an
`acquire` is disabled while `cap` callers are running. -/
theorem poolStep_full_release {s s' : PoolState}
    (hfull : runningCount s = s.cap) (h : PoolStep s s') :
    runningCount s' + 1 = s.cap := by
  cases h with
  | acquire c pre post hfree =>
      simp only [runningCount, PoolState.cap] at hfull
      omega
  | release c pre post =>
      simp only [runningCount, PoolState.cap, count_append_cons] at hfull ⊢
      simp at hfull ⊢
      omega

/-- C6: the `withSemaphore` contract.  (1) Cancellation while waiting
returns an error without acquiring a slot or running `fn`; (2) once a
slot is acquired, `fn` runs and the deferred receive always releases the
slot — on normal return, on error, and on panic; (3) on a semaphore of
capacity C at most C callers run concurrently in every reachable state;
(4) while C callers hold slots no further caller can start: every
enabled step is a release. -/
theorem C6_withSemaphore_contract :
    (∀ (label : String) (c : SlotCall), c.cancelledWhileWaiting = true →
      (withSemaphore label c).ran = false ∧ (withSemaphore label c).acquired = false ∧
      ∃ e, (withSemaphore label c).result = some (.error e)) ∧
    (∀ (label : String) (c : SlotCall), c.cancelledWhileWaiting = false →
      (withSemaphore label c).ran = true ∧ (withSemaphore label c).acquired = true ∧
      (withSemaphore label c).released = true) ∧
    (∀ cap n s, PoolReachable cap n s → runningCount s ≤ cap) ∧
    (∀ s s' : PoolState, runningCount s = s.cap → PoolStep s s' →
      runningCount s' + 1 = s.cap) := by
  refine ⟨?_, ?_, ?_, ?_⟩
  · intro label c hc
    simp [withSemaphore, hc]
  · intro label c hc
    simp [withSemaphore, hc]
  · intro cap n s h
    exact (poolReachable_inv cap n s h).2
  · intro s s' hfull h
    exact poolStep_full_release hfull h

/-- Witness for C6: a cancelled call never runs its function; a panicking
call still releases its slot; with capacity 1 and two callers, the state
after one acquisition is reachable and holds the bound, and from the
full state the only step drops the running count. -/
theorem C6_withSemaphore_contract_witness :
    (withSemaphore "Render:clip_0" ⟨true, .ok⟩).ran = false ∧
    (withSemaphore "Gemini:clip_0" ⟨false, .panicked⟩).released = true ∧
    runningCount ⟨1, [CallerPhase.running, CallerPhase.waiting]⟩ ≤ 1 ∧
    runningCount ⟨1, [CallerPhase.finished, CallerPhase.waiting]⟩ + 1 = 1 := by
  refine ⟨?_, ?_, ?_, ?_⟩
  · exact (C6_withSemaphore_contract.1 "Render:clip_0" ⟨true, .ok⟩ rfl).1
  · exact (C6_withSemaphore_contract.2.1 "Gemini:clip_0" ⟨false, .panicked⟩ rfl).2.2
  · refine C6_withSemaphore_contract.2.2.1 1 2 _ ?_
    exact Relation.ReflTransGen.single
      (show PoolStep ⟨1, [] ++ CallerPhase.waiting :: [CallerPhase.waiting]⟩
          ⟨1, [] ++ CallerPhase.running :: [CallerPhase.waiting]⟩ from
        PoolStep.acquire 1 [] [CallerPhase.waiting] (by decide))
  · exact C6_withSemaphore_contract.2.2.2 ⟨1, [CallerPhase.running, CallerPhase.waiting]⟩
      ⟨1, [CallerPhase.finished, CallerPhase.waiting]⟩ rfl
      (PoolStep.release 1 [] [CallerPhase.waiting])

end Semaphore

namespace ClipProc

/-- Every interleaving is a permutation of the two input sequences. -/
theorem interleavings_perm : ∀ (xs ys t : List α), t ∈ interleavings xs ys →
    t.Perm (xs ++ ys) := by
  intro xs ys
  induction xs, ys using interleavings.induct with
  | case1 ys => intro t ht; simp [interleavings] at ht; subst ht; simp
  | case2 x xs => intro t ht; simp [interleavings] at ht; subst ht; simp
  | case3 x xs y ys ih1 ih2 =>
      intro t ht
      simp only [interleavings, List.mem_append, List.mem_map] at ht
      rcases ht with ⟨u, hu, rfl⟩ | ⟨u, hu, rfl⟩
      · exact (ih1 u hu).cons x
      · exact ((ih2 u hu).cons y).trans List.perm_middle.symm

/-- The visual pipeline either succeeds having written exactly `imaged`,
fails at image generation having written exactly `failed` with the
generation error recorded, or aborts later (upload, asset insert, or the
`UpdateClipImage` write itself failing) with no clip write at all. -/
theorem pipelineA_cases (env : ClipEnv) :
    (∃ av, pipelineA env = ([ClipWrite.image], .ok av)) ∨
    (∃ e, pipelineA env =
      ([ClipWrite.error ("Image generation failed: " ++ e)],
        .error ("failed to generate image: " ++ e))) ∨
    (∃ e, pipelineA env = ([], .error e)) := by
  unfold pipelineA
  cases h1 : env.imageGen with
  | error e => exact .inr (.inl ⟨e, rfl⟩)
  | ok i =>
      cases h2 : env.imageUpload with
      | error e => exact .inr (.inr ⟨_, rfl⟩)
      | ok u =>
          cases h3 : env.imageAssetInsert with
          | error e => exact .inr (.inr ⟨_, rfl⟩)
          | ok u2 =>
              cases h4 : env.imageClipUpdate with
              | error e => exact .inr (.inr ⟨_, rfl⟩)
              | ok u3 =>
                  cases h5 : env.xaiConfigured with
                  | false => exact .inl ⟨none, by simp⟩
                  | true =>
                      cases h6 : env.xaiGen with
                      | error e => exact .inl ⟨none, by simp⟩
                      | ok v => exact .inl ⟨some v, by simp⟩

/-- The audio pipeline either succeeds having written exactly `voiced`,
fails at TTS having written exactly `failed` with the TTS error
recorded, or aborts later with no clip write at all. -/
theorem pipelineB_cases (env : ClipEnv) :
    (∃ ad w, pipelineB env = ([ClipWrite.audio], .ok (ad, w))) ∨
    (∃ e, pipelineB env =
      ([ClipWrite.error ("TTS failed: " ++ e)],
        .error ("failed to generate audio: " ++ e))) ∨
    (∃ e, pipelineB env = ([], .error e)) := by
  unfold pipelineB
  cases h1 : env.tts with
  | error e => exact .inr (.inl ⟨e, rfl⟩)
  | ok p =>
      obtain ⟨ad, dur⟩ := p
      cases h2 : env.audioUpload with
      | error e => exact .inr (.inr ⟨_, rfl⟩)
      | ok u =>
          cases h3 : env.audioAssetInsert with
          | error e => exact .inr (.inr ⟨_, rfl⟩)
          | ok u2 =>
              cases h4 : env.audioClipUpdate with
              | error e => exact .inr (.inr ⟨_, rfl⟩)
              | ok u3 =>
                  cases h5 : env.transcribe with
                  | error e => exact .inl ⟨ad, none, rfl⟩
                  | ok w => exact .inl ⟨ad, some w, rfl⟩

/-- The render phase either writes exactly `rendered`, or writes exactly
`failed` with `"Render failed: …"` recorded (any failure inside
`renderClip` — ffmpeg, upload, asset insert, or the `UpdateClipVideo`
write — is caught by `handleProcessClip`'s `UpdateClipError` call). -/
theorem renderPhase_cases (env : ClipEnv) (av : Option Nat) :
    renderPhase env av = ([ClipWrite.video], .ok ()) ∨
    (∃ e, renderPhase env av =
      ([ClipWrite.error ("Render failed: " ++ e)],
        .error ("failed to render clip: " ++ e))) := by
  unfold renderPhase renderClip
  cases h1 : env.renderExec with
  | error e => exact .inr ⟨e, rfl⟩
  | ok r =>
      cases h2 : env.videoUpload with
      | error e => exact .inr ⟨_, rfl⟩
      | ok u =>
          cases h3 : env.videoAssetInsert with
          | error e => exact .inr ⟨_, rfl⟩
          | ok u2 =>
              cases h4 : env.videoClipUpdate with
              | error e => exact .inr ⟨_, rfl⟩
              | ok u3 => exact .inl rfl

/-- The rank of each clip status in the order claimed by the spec
(`pending → voiced → imaged → rendered`, `failed` as an absorbing
jump).  This definition follows the spec's words, for comparison with
the source-derived traces. -/
def specStatusRank : ClipStatus → Nat
  | .pending => 0
  | .voiced => 1
  | .imaged => 2
  | .rendered => 3
  | .failed => 4

/-- The spec's claimed invariant on a sequence of persisted statuses
(starting from `pending`): each successive write either jumps to
`failed` or moves forward in the claimed order.  This definition follows
the spec's words, for comparison with the source-derived traces. -/
def specNeverRegresses (statuses : List ClipStatus) : Prop :=
  List.Chain'
    (fun s s' => s' = ClipStatus.failed ∨ specStatusRank s ≤ specStatusRank s')
    (ClipStatus.pending :: statuses)

/-- C1 counterexample: with every call succeeding, the persisted write
sequence `imaged, voiced, rendered` is an admissible interleaving of the
two concurrent pipelines (the visual pipeline's `UpdateClipImage` lands
before the audio pipeline's `UpdateClipAudio`), and its status sequence
regresses from `imaged` (rank 2) back to `voiced` (rank 1), refuting the
claimed forward-only order. -/
theorem C1_regression_counterexample :
    [ClipWrite.image, ClipWrite.audio, ClipWrite.video] ∈ clipStatusTraces envOK ∧
    ¬ specNeverRegresses
        ([ClipWrite.image, ClipWrite.audio, ClipWrite.video].map writeStatus) := by
  refine ⟨?_, ?_⟩
  · simp [clipStatusTraces, envOK, pipelineA, pipelineB, renderPhase, renderClip,
      interleavings]
  · simp [specNeverRegresses, List.chain'_cons, writeStatus, specStatusRank]

/-- C1 (amended): `rendered` is only ever written as the final status
write of a clip run, exactly once, after both `voiced` and `imaged` and
never alongside a `failed` write; but because the audio and visual
pipelines run concurrently, the `voiced` and `imaged` writes may land in
either order, so the persisted status may step backward from `imaged`
to `voiced`. -/
theorem C1_clip_status_writes_amended :
    ∀ (env : ClipEnv) (t : List ClipWrite), t ∈ clipStatusTraces env →
      ClipWrite.video ∈ t →
      t = [ClipWrite.image, ClipWrite.audio, ClipWrite.video] ∨
      t = [ClipWrite.audio, ClipWrite.image, ClipWrite.video] := by
  intro env t ht hv
  rcases pipelineA_cases env with ⟨av, hA⟩ | ⟨e1, hA⟩ | ⟨e1, hA⟩ <;>
    rcases pipelineB_cases env with ⟨ad, w, hB⟩ | ⟨e2, hB⟩ | ⟨e2, hB⟩ <;>
      simp only [clipStatusTraces, hA, hB] at ht
  · rcases renderPhase_cases env av with hR | ⟨e3, hR⟩ <;> rw [hR] at ht <;>
      simp [interleavings] at ht
    · exact ht
    · rcases ht with rfl | rfl <;> simp at hv
  all_goals
    simp [interleavings] at ht
  all_goals
    rcases ht with rfl | rfl <;> simp at hv

/-- Witness for the amended C1, at the all-success environment and the
interleaving where the image write lands first. -/
theorem C1_clip_status_writes_amended_witness :
    [ClipWrite.image, ClipWrite.audio, ClipWrite.video] =
        [ClipWrite.image, ClipWrite.audio, ClipWrite.video] ∨
      [ClipWrite.image, ClipWrite.audio, ClipWrite.video] =
        [ClipWrite.audio, ClipWrite.image, ClipWrite.video] :=
  C1_clip_status_writes_amended envOK _
    (by simp [clipStatusTraces, envOK, pipelineA, pipelineB, renderPhase, renderClip,
      interleavings])
    (by decide)

/-- The all-success environment with the image upload failing. -/
def envImageUploadFail : ClipEnv :=
  { envOK with imageUpload := .error "storage 500" }

/-- C7 counterexample: when the image upload fails, `handleProcessClip`
aborts (returns an error, render never runs) — but the only clip write
of any schedule is the audio pipeline's `voiced`; no `UpdateClipError`
runs, so the clip is never marked `failed` and the triggering error is
not recorded on the clip row, contradicting the claim for upload
failures. -/
theorem C7_upload_failure_counterexample :
    clipResult envImageUploadFail =
      .error "clip processing failed: failed to upload image: storage 500" ∧
    renderRan envImageUploadFail = false ∧
    clipStatusTraces envImageUploadFail = [[ClipWrite.audio]] := by
  refine ⟨rfl, rfl, ?_⟩
  simp [clipStatusTraces, envImageUploadFail, envOK, pipelineA, pipelineB, interleavings]

/-- C7 (amended): an image-generation failure, a TTS failure, or a
render failure aborts the clip and records the triggering error on the
clip row via `UpdateClipError` (status `failed`); an upload failure (or
a failing asset insert or clip update) in either pipeline also aborts
the clip — the handler errors and the render step never runs — but
performs no clip write at all, leaving the clip unmarked. -/
theorem C7_fatal_failure_handling_amended :
    (∀ (env : ClipEnv) (e : String), env.imageGen = .error e →
      renderRan env = false ∧ (∃ msg, clipResult env = .error msg) ∧
      ∀ t ∈ clipStatusTraces env,
        ClipWrite.error ("Image generation failed: " ++ e) ∈ t) ∧
    (∀ (env : ClipEnv) (e : String), env.tts = .error e →
      renderRan env = false ∧ (∃ msg, clipResult env = .error msg) ∧
      ∀ t ∈ clipStatusTraces env, ClipWrite.error ("TTS failed: " ++ e) ∈ t) ∧
    (∀ (env : ClipEnv) (e : String) (i : Nat), env.imageGen = .ok i →
      env.imageUpload = .error e →
      renderRan env = false ∧ (∃ msg, clipResult env = .error msg) ∧
      (pipelineA env).1 = []) ∧
    (∀ (env : ClipEnv) (e : String) (ad d : Nat), env.tts = .ok (ad, d) →
      env.audioUpload = .error e →
      renderRan env = false ∧ (∃ msg, clipResult env = .error msg) ∧
      (pipelineB env).1 = []) ∧
    (∀ (env : ClipEnv) (e : String), env.renderExec = .error e → renderRan env = true →
      (∃ msg, clipResult env = .error msg) ∧
      ∀ t ∈ clipStatusTraces env,
        ClipWrite.error ("Render failed: " ++ e) ∈ t) := by
  refine ⟨?_, ?_, ?_, ?_, ?_⟩
  · intro env e h
    have hA : pipelineA env =
        ([ClipWrite.error ("Image generation failed: " ++ e)],
          .error ("failed to generate image: " ++ e)) := by
      simp [pipelineA, h]
    refine ⟨by simp [renderRan, hA],
      by simp only [clipResult, hA]; exact ⟨_, rfl⟩, ?_⟩
    intro t ht
    simp only [clipStatusTraces, hA] at ht
    exact ((interleavings_perm _ _ t ht).mem_iff).2 (by simp)
  · intro env e h
    have hB : pipelineB env =
        ([ClipWrite.error ("TTS failed: " ++ e)],
          .error ("failed to generate audio: " ++ e)) := by
      simp [pipelineB, h]
    rcases pipelineA_cases env with ⟨av, hA⟩ | ⟨e1, hA⟩ | ⟨e1, hA⟩ <;>
      refine ⟨by simp [renderRan, hA, hB],
        by simp only [clipResult, hA, hB]; exact ⟨_, rfl⟩, ?_⟩ <;>
      intro t ht <;>
      simp only [clipStatusTraces, hA, hB] at ht <;>
      exact ((interleavings_perm _ _ t ht).mem_iff).2 (by simp)
  · intro env e i h1 h2
    have hA : pipelineA env = ([], .error ("failed to upload image: " ++ e)) := by
      simp [pipelineA, h1, h2]
    exact ⟨by simp [renderRan, hA],
      by simp only [clipResult, hA]; exact ⟨_, rfl⟩, by simp [hA]⟩
  · intro env e ad d h1 h2
    have hB : pipelineB env = ([], .error ("failed to upload audio: " ++ e)) := by
      simp [pipelineB, h1, h2]
    rcases pipelineA_cases env with ⟨av, hA⟩ | ⟨e1, hA⟩ | ⟨e1, hA⟩ <;>
      exact ⟨by simp [renderRan, hA, hB],
        by simp only [clipResult, hA, hB]; exact ⟨_, rfl⟩, by simp [hB]⟩
  · intro env e hre hran
    rcases pipelineA_cases env with ⟨av, hA⟩ | ⟨e1, hA⟩ | ⟨e1, hA⟩
    · rcases pipelineB_cases env with ⟨ad, w, hB⟩ | ⟨e2, hB⟩ | ⟨e2, hB⟩
      · have hR : renderPhase env av =
            ([ClipWrite.error ("Render failed: " ++ e)],
              .error ("failed to render clip: " ++ e)) := by
          simp [renderPhase, renderClip, hre]
        refine ⟨by simp only [clipResult, hA, hB, hR]; exact ⟨_, rfl⟩, ?_⟩
        intro t ht
        simp only [clipStatusTraces, hA, hB, hR, List.mem_map] at ht
        obtain ⟨u, hu, rfl⟩ := ht
        simp
      · simp [renderRan, hA, hB] at hran
      · simp [renderRan, hA, hB] at hran
    · simp [renderRan, hA] at hran
    · simp [renderRan, hA] at hran

/-- Witness for the amended C7: concrete image-generation failure. -/
theorem C7_fatal_failure_handling_witness :
    renderRan { envOK with imageGen := .error "gemini 500" } = false ∧
    ClipWrite.error ("Image generation failed: " ++ "gemini 500") ∈
      [ClipWrite.error "Image generation failed: gemini 500", ClipWrite.audio] := by
  have h := C7_fatal_failure_handling_amended.1
    { envOK with imageGen := .error "gemini 500" } "gemini 500" rfl
  refine ⟨h.1, h.2.2 _ ?_⟩
  simp [clipStatusTraces, envOK, pipelineA, pipelineB, interleavings]

/-- C8: if the optional xAI video synthesis fails (or times out) while
everything else succeeds, the clip still completes successfully: the
render step runs on the Ken Burns (static image) path, the final clip
write is `rendered`, and no `failed`/error write ever touches the clip
row — the xAI error is only logged. -/
theorem C8_xai_failure_fallback :
    ∀ (env : ClipEnv) (e : String) (i ad d r : Nat),
      env.imageGen = .ok i → env.imageUpload = .ok () →
      env.imageAssetInsert = .ok () → env.imageClipUpdate = .ok () →
      env.xaiConfigured = true → env.xaiGen = .error e →
      env.tts = .ok (ad, d) → env.audioUpload = .ok () →
      env.audioAssetInsert = .ok () → env.audioClipUpdate = .ok () →
      env.renderExec = .ok r → env.videoUpload = .ok () →
      env.videoAssetInsert = .ok () → env.videoClipUpdate = .ok () →
      clipResult env = .ok () ∧
      clipRenderPath env = some RenderPath.kenBurns ∧
      clipStatusTraces env =
        [[ClipWrite.image, ClipWrite.audio, ClipWrite.video],
         [ClipWrite.audio, ClipWrite.image, ClipWrite.video]] := by
  intro env e i ad d r h1 h2 h3 h4 h5 h6 h7 h8 h9 h10 h11 h12 h13 h14
  have hA : pipelineA env = ([ClipWrite.image], .ok none) := by
    simp [pipelineA, h1, h2, h3, h4, h5, h6]
  have hR : renderPhase env none = ([ClipWrite.video], .ok ()) := by
    simp [renderPhase, renderClip, h11, h12, h13, h14]
  cases ht : env.transcribe with
  | error we =>
      have hB : pipelineB env = ([ClipWrite.audio], .ok (ad, none)) := by
        simp [pipelineB, h7, h8, h9, h10, ht]
      refine ⟨by simp [clipResult, hA, hB, hR], by simp [clipRenderPath, hA, hB], ?_⟩
      simp [clipStatusTraces, hA, hB, hR, interleavings]
  | ok w =>
      have hB : pipelineB env = ([ClipWrite.audio], .ok (ad, some w)) := by
        simp [pipelineB, h7, h8, h9, h10, ht]
      refine ⟨by simp [clipResult, hA, hB, hR], by simp [clipRenderPath, hA, hB], ?_⟩
      simp [clipStatusTraces, hA, hB, hR, interleavings]

/-- Witness for C8: concrete xAI timeout on the all-success
environment. -/
theorem C8_xai_failure_fallback_witness :
    clipResult { envOK with xaiGen := .error "video generation timed out after 6m0s" } =
        .ok () ∧
    clipRenderPath { envOK with xaiGen := .error "video generation timed out after 6m0s" } =
        some RenderPath.kenBurns := by
  have h := C8_xai_failure_fallback
    { envOK with xaiGen := .error "video generation timed out after 6m0s" }
    "video generation timed out after 6m0s" 1 3 4500 5
    rfl rfl rfl rfl rfl rfl rfl rfl rfl rfl rfl rfl rfl rfl
  exact ⟨h.1, h.2.1⟩

end ClipProc

namespace System

/-- `get?` at the written position of a split clip list. -/
theorem get?_middle (pre post : List α) (x : α) :
    (pre ++ x :: post).get? pre.length = some x := by
  rw [List.get?_append_right le_rfl]
  simp

/-- `get?` away from the written position is unchanged by an in-place
clip update. -/
theorem get?_update_ne (pre post : List α) (x y : α) (i : Nat) (hne : i ≠ pre.length) :
    (pre ++ y :: post).get? i = (pre ++ x :: post).get? i := by
  rcases Nat.lt_or_ge i pre.length with h | h
  · rw [List.get?_append h, List.get?_append h]
  · obtain ⟨j, hj⟩ : ∃ j, i - pre.length = j + 1 := ⟨i - pre.length - 1, by omega⟩
    rw [List.get?_append_right h, List.get?_append_right h, hj]
    rfl

/-- Inductive invariant: a clip at `rendered` has finished its job (no
further writes can touch it); every clip row that existed when
`render_final` was last enqueued is `rendered` and finished; and a
`render_final` job — or project status `completed` — implies such an
enqueue happened. -/
def Inv (s : SysState) : Prop :=
  (∀ p ∈ s.clips, p.1 = ClipStatus.rendered → p.2 = false) ∧
  (∀ k, s.enqueuedCount = some k → ∀ i, i < k →
    ∃ p, s.clips.get? i = some p ∧ p.1 = ClipStatus.rendered ∧ p.2 = false) ∧
  ((s.finalEnqueued = true ∨ s.project = ProjectStatus.completed) →
    s.enqueuedCount.isSome = true)

/-- The invariant is preserved by every pipeline write. -/
theorem sysStep_inv {s s' : SysState} (h : Inv s) (hst : SysStep s s') : Inv s' := by
  obtain ⟨h1, h2, h3⟩ := h
  cases hst with
  | createClip proj cl k fe ec =>
      refine ⟨?_, ?_, h3⟩
      · intro p hp hpr
        rcases List.mem_append.1 hp with hp | hp
        · exact h1 p hp hpr
        · rcases List.mem_singleton.1 hp with rfl
          simp at hpr
      · intro m hm i hi
        obtain ⟨p, hp, hpr, hpa⟩ := h2 m hm i hi
        refine ⟨p, ?_, hpr, hpa⟩
        have hlen : i < cl.length := (List.get?_eq_some.1 hp).1
        rw [List.get?_append hlen]
        exact hp
  | planGenerating proj cl fe ec =>
      refine ⟨h1, h2, ?_⟩
      intro hfe
      rcases hfe with hfe | hfe
      · exact h3 (.inl hfe)
      · simp at hfe
  | midWrite proj k fe ec pre post c st hst' =>
      refine ⟨?_, ?_, h3⟩
      · intro p hp hpr
        rcases List.mem_append.1 hp with hp | hp
        · exact h1 p (by simp [hp]) hpr
        · rcases List.mem_cons.1 hp with rfl | hp
          · rcases hst' with rfl | rfl | rfl <;> simp at hpr
          · exact h1 p (by simp [hp]) hpr
      · intro m hm i hi
        obtain ⟨p, hp, hpr, hpa⟩ := h2 m hm i hi
        have hne : i ≠ pre.length := by
          intro hcontra
          rw [hcontra, get?_middle] at hp
          cases hp
          simp at hpa
        refine ⟨p, ?_, hpr, hpa⟩
        rw [get?_update_ne pre post (c, true) (st, true) i hne]
        exact hp
  | finishRendered proj k fe ec pre post c =>
      refine ⟨?_, ?_, h3⟩
      · intro p hp hpr
        rcases List.mem_append.1 hp with hp | hp
        · exact h1 p (by simp [hp]) hpr
        · rcases List.mem_cons.1 hp with rfl | hp
          · rfl
          · exact h1 p (by simp [hp]) hpr
      · intro m hm i hi
        obtain ⟨p, hp, hpr, hpa⟩ := h2 m hm i hi
        have hne : i ≠ pre.length := by
          intro hcontra
          rw [hcontra, get?_middle] at hp
          cases hp
          simp at hpa
        refine ⟨p, ?_, hpr, hpa⟩
        rw [get?_update_ne pre post (c, true) (ClipStatus.rendered, false) i hne]
        exact hp
  | finishAborted proj k fe ec pre post c =>
      refine ⟨?_, ?_, h3⟩
      · intro p hp hpr
        rcases List.mem_append.1 hp with hp | hp
        · exact h1 p (by simp [hp]) hpr
        · rcases List.mem_cons.1 hp with rfl | hp
          · rfl
          · exact h1 p (by simp [hp]) hpr
      · intro m hm i hi
        obtain ⟨p, hp, hpr, hpa⟩ := h2 m hm i hi
        have hne : i ≠ pre.length := by
          intro hcontra
          rw [hcontra, get?_middle] at hp
          cases hp
          simp at hpa
        refine ⟨p, ?_, hpr, hpa⟩
        rw [get?_update_ne pre post (c, true) (c, false) i hne]
        exact hp
  | enqueueFinal proj cl k fe ec hall =>
      refine ⟨h1, ?_, fun _ => rfl⟩
      intro m hm i hi
      cases hm
      have hget : cl.get? i = some (cl.get ⟨i, hi⟩) := List.get?_eq_get hi
      have hmem : cl.get ⟨i, hi⟩ ∈ cl := List.get_mem cl i hi
      have hpr : (cl.get ⟨i, hi⟩).1 = ClipStatus.rendered := hall _ hmem
      exact ⟨cl.get ⟨i, hi⟩, hget, hpr, h1 _ hmem hpr⟩
  | projectError proj cl k fe ec =>
      refine ⟨h1, h2, ?_⟩
      intro hfe
      rcases hfe with hfe | hfe
      · exact h3 (.inl hfe)
      · simp at hfe
  | renderFinalOk proj cl k ec =>
      exact ⟨h1, h2, fun _ => h3 (.inl rfl)⟩

/-- Every reachable persisted state satisfies the invariant. -/
theorem reachable_inv (n : Nat) (s : SysState) (h : Reachable n s) : Inv s := by
  induction h with
  | refl =>
      refine ⟨?_, ?_, ?_⟩
      · intro p hp hpr
        simp [initState] at hp
      · intro m hm
        simp [initState] at hm
      · intro hfe
        rcases hfe with hfe | hfe <;> simp [initState] at hfe
  | tail _ hstep ih => exact sysStep_inv ih hstep

/-- C2 counterexample: the plan/worker race.  `handleGeneratePlan`
creates clip 0 and enqueues its job, a worker renders it,
`AreAllClipsRendered` (a count over the rows inserted so far) observes
zero non-rendered clips, `render_final` is enqueued and completes with
`SetProjectFinalVideo` writing `completed` — and only then does the
still-running plan handler insert clip 1 as `pending`.  The resulting
persisted state has project `completed` with an owned `pending` clip,
refuting the claimed invariant. -/
theorem C2_plan_race_counterexample :
    Reachable 2 ⟨ProjectStatus.completed,
      [(ClipStatus.rendered, false), (ClipStatus.pending, true)], 0, true, some 1⟩ ∧
    (⟨ProjectStatus.completed,
      [(ClipStatus.rendered, false), (ClipStatus.pending, true)], 0, true, some 1⟩ :
        SysState).project = ProjectStatus.completed ∧
    ¬ ∀ p ∈ (⟨ProjectStatus.completed,
      [(ClipStatus.rendered, false), (ClipStatus.pending, true)], 0, true, some 1⟩ :
        SysState).clips, p.1 = ClipStatus.rendered := by
  refine ⟨?_, rfl, by decide⟩
  have s1 : SysStep (initState 2)
      ⟨ProjectStatus.planning, [(ClipStatus.pending, true)], 1, false, none⟩ :=
    SysStep.createClip ProjectStatus.planning [] 1 false none
  have s2 : SysStep ⟨ProjectStatus.planning, [(ClipStatus.pending, true)], 1, false, none⟩
      ⟨ProjectStatus.planning, [(ClipStatus.rendered, false)], 1, false, none⟩ :=
    SysStep.finishRendered ProjectStatus.planning 1 false none [] [] ClipStatus.pending
  have s3 : SysStep ⟨ProjectStatus.planning, [(ClipStatus.rendered, false)], 1, false, none⟩
      ⟨ProjectStatus.rendering, [(ClipStatus.rendered, false)], 1, true, some 1⟩ :=
    SysStep.enqueueFinal ProjectStatus.planning [(ClipStatus.rendered, false)] 1 false none
      (by intro p hp; rcases List.mem_singleton.1 hp with rfl; rfl)
  have s4 : SysStep ⟨ProjectStatus.rendering, [(ClipStatus.rendered, false)], 1, true, some 1⟩
      ⟨ProjectStatus.completed, [(ClipStatus.rendered, false)], 1, true, some 1⟩ :=
    SysStep.renderFinalOk ProjectStatus.rendering [(ClipStatus.rendered, false)] 1 (some 1)
  have s5 : SysStep
      ⟨ProjectStatus.completed, [(ClipStatus.rendered, false)], 1, true, some 1⟩
      ⟨ProjectStatus.completed,
        [(ClipStatus.rendered, false), (ClipStatus.pending, true)], 0, true, some 1⟩ :=
    SysStep.createClip ProjectStatus.completed [(ClipStatus.rendered, false)] 0 true (some 1)
  exact Relation.ReflTransGen.tail (Relation.ReflTransGen.tail (Relation.ReflTransGen.tail
    (Relation.ReflTransGen.tail (Relation.ReflTransGen.single s1) s2) s3) s4) s5

/-- C2 (amended): in every reachable state of the pipeline, if the
project status is `completed` then every clip row that existed when the
`render_final` job was enqueued — i.e. when `AreAllClipsRendered`
reported zero clips whose status differs from `rendered` — is
`rendered`; in particular, when no clip row was created after that
enqueue, every clip of the project is `rendered`.  Clips the
still-running plan handler creates after the enqueue are not covered
(see the counterexample). -/
theorem C2_completed_rendered_amended :
    ∀ (n : Nat) (s : SysState), Reachable n s →
      s.project = ProjectStatus.completed →
      ∃ k, s.enqueuedCount = some k ∧
        (∀ i, i < k → ∃ p, s.clips.get? i = some p ∧ p.1 = ClipStatus.rendered) ∧
        (k = s.clips.length → ∀ p ∈ s.clips, p.1 = ClipStatus.rendered) := by
  intro n s h hc
  obtain ⟨h1, h2, h3⟩ := reachable_inv n s h
  obtain ⟨k, hk⟩ := Option.isSome_iff_exists.1 (h3 (.inr hc))
  refine ⟨k, hk, ?_, ?_⟩
  · intro i hi
    obtain ⟨p, hp, hpr, _⟩ := h2 k hk i hi
    exact ⟨p, hp, hpr⟩
  · intro hlen p hp
    obtain ⟨i, hi⟩ := List.mem_iff_get?.1 hp
    have hilt : i < k := hlen ▸ (List.get?_eq_some.1 hi).1
    obtain ⟨q, hq, hqr, _⟩ := h2 k hk i hilt
    rw [hi] at hq
    cases hq
    exact hqr

/-- Witness for the amended C2: a one-clip project whose single clip is
created, rendered and final-rendered with no clip created after the
enqueue; the theorem applies to its clip. -/
theorem C2_completed_rendered_amended_witness :
    ((ClipStatus.rendered, false) : ClipStatus × Bool).1 = ClipStatus.rendered := by
  have s1 : SysStep (initState 1)
      ⟨ProjectStatus.planning, [(ClipStatus.pending, true)], 0, false, none⟩ :=
    SysStep.createClip ProjectStatus.planning [] 0 false none
  have s2 : SysStep ⟨ProjectStatus.planning, [(ClipStatus.pending, true)], 0, false, none⟩
      ⟨ProjectStatus.generating, [(ClipStatus.pending, true)], 0, false, none⟩ :=
    SysStep.planGenerating ProjectStatus.planning [(ClipStatus.pending, true)] false none
  have s3 : SysStep ⟨ProjectStatus.generating, [(ClipStatus.pending, true)], 0, false, none⟩
      ⟨ProjectStatus.generating, [(ClipStatus.rendered, false)], 0, false, none⟩ :=
    SysStep.finishRendered ProjectStatus.generating 0 false none [] [] ClipStatus.pending
  have s4 : SysStep ⟨ProjectStatus.generating, [(ClipStatus.rendered, false)], 0, false, none⟩
      ⟨ProjectStatus.rendering, [(ClipStatus.rendered, false)], 0, true, some 1⟩ :=
    SysStep.enqueueFinal ProjectStatus.generating [(ClipStatus.rendered, false)] 0 false none
      (by intro p hp; rcases List.mem_singleton.1 hp with rfl; rfl)
  have s5 : SysStep ⟨ProjectStatus.rendering, [(ClipStatus.rendered, false)], 0, true, some 1⟩
      ⟨ProjectStatus.completed, [(ClipStatus.rendered, false)], 0, true, some 1⟩ :=
    SysStep.renderFinalOk ProjectStatus.rendering [(ClipStatus.rendered, false)] 0 (some 1)
  have hreach : Reachable 1
      ⟨ProjectStatus.completed, [(ClipStatus.rendered, false)], 0, true, some 1⟩ :=
    Relation.ReflTransGen.tail (Relation.ReflTransGen.tail (Relation.ReflTransGen.tail
      (Relation.ReflTransGen.tail (Relation.ReflTransGen.single s1) s2) s3) s4) s5
  obtain ⟨k, hk, _, hfull⟩ := C2_completed_rendered_amended 1 _ hreach rfl
  have hk1 : k = 1 := (Option.some.inj hk).symm
  exact hfull (by rw [hk1]; rfl) (ClipStatus.rendered, false) (by simp)

end System

namespace FinalRender

instance : IsTotal ClipRow byClipIndex :=
  ⟨fun x y => Nat.le_total x.clipIndex y.clipIndex⟩

instance : IsTrans ClipRow byClipIndex :=
  ⟨fun _ _ _ hxy hyz => Nat.le_trans hxy hyz⟩

/-- A permutation of sorted clip lists with pairwise-distinct
`clip_index` values is an equality: `ORDER BY` on a unique key is
deterministic. -/
theorem eq_of_perm_sorted_nodup :
    ∀ (l₁ l₂ : List ClipRow), l₁.Perm l₂ →
      l₁.Sorted byClipIndex → l₂.Sorted byClipIndex →
      (l₁.map ClipRow.clipIndex).Nodup → l₁ = l₂ := by
  intro l₁
  induction l₁ with
  | nil => intro l₂ hp _ _ _; exact (hp.nil_eq).symm ▸ rfl
  | cons a t₁ ih =>
      intro l₂ hp hs₁ hs₂ hn
      cases l₂ with
      | nil => exact absurd hp.symm.nil_eq (by simp)
      | cons b t₂ =>
          have hab : a = b := by
            by_contra hne
            have hbmem : b ∈ a :: t₁ := hp.symm.subset (List.mem_cons_self b t₂)
            rcases List.mem_cons.1 hbmem with hb | hb
            · exact hne hb.symm
            · have hamem : a ∈ b :: t₂ := hp.subset (List.mem_cons_self a t₁)
              rcases List.mem_cons.1 hamem with ha | ha
              · exact hne ha
              · have h₁ : a.clipIndex ≤ b.clipIndex :=
                  (List.pairwise_cons.1 hs₁).1 b hb
                have h₂ : b.clipIndex ≤ a.clipIndex :=
                  (List.pairwise_cons.1 hs₂).1 a ha
                have heq : a.clipIndex = b.clipIndex := Nat.le_antisymm h₁ h₂
                have hnotin : a.clipIndex ∉ t₁.map ClipRow.clipIndex :=
                  (List.nodup_cons.1 (by simpa using hn)).1
                exact hnotin (heq ▸ List.mem_map_of_mem ClipRow.clipIndex hb)
          subst hab
          have hpt : t₁.Perm t₂ := hp.cons_inv
          have := ih t₂ hpt (List.pairwise_cons.1 hs₁).2 (List.pairwise_cons.1 hs₂).2
            (List.nodup_cons.1 (by simpa using hn)).2
          rw [this]

/-- The collection loop succeeds when every clip holds a video asset. -/
theorem collectClipVideosGo_ok :
    ∀ l : List ClipRow, (∀ c ∈ l, c.videoAssetId.isSome = true) →
      ∃ ps, collectClipVideosGo l = .ok ps := by
  intro l
  induction l with
  | nil => intro _; exact ⟨[], rfl⟩
  | cons c t ih =>
      intro h
      obtain ⟨a, ha⟩ := Option.isSome_iff_exists.1 (h c (List.mem_cons_self c t))
      obtain ⟨ps, hps⟩ := ih (fun x hx => h x (List.mem_cons_of_mem c hx))
      exact ⟨a :: ps, by simp [collectClipVideosGo, ha, hps]⟩

/-- C9: `render_final` concatenates clip videos in ascending
`clip_index` order, independent of the wall-clock order in which clips
finished: (1) `GetProjectClips` returns the stored clips sorted by
`clip_index`; (2) it returns exactly the stored clips (a permutation);
(3) for stored lists that are permutations of each other (distinct
`clip_index` values per project), both the returned clip order and the
collected video list are identical. -/
theorem C9_concat_order :
    (∀ stored : List ClipRow, (GetProjectClips stored).Sorted byClipIndex) ∧
    (∀ stored : List ClipRow, (GetProjectClips stored).Perm stored) ∧
    (∀ s₁ s₂ : List ClipRow, s₁.Perm s₂ →
      (s₁.map ClipRow.clipIndex).Nodup →
      GetProjectClips s₁ = GetProjectClips s₂ ∧
      collectClipVideos s₁ = collectClipVideos s₂) := by
  refine ⟨?_, ?_, ?_⟩
  · intro stored
    exact List.sorted_insertionSort byClipIndex stored
  · intro stored
    exact List.perm_insertionSort byClipIndex stored
  · intro s₁ s₂ hperm hnodup
    have h1 : (GetProjectClips s₁).Perm (GetProjectClips s₂) :=
      ((List.perm_insertionSort byClipIndex s₁).trans hperm).trans
        (List.perm_insertionSort byClipIndex s₂).symm
    have hnodup₁ : ((GetProjectClips s₁).map ClipRow.clipIndex).Nodup :=
      (((List.perm_insertionSort byClipIndex s₁).map ClipRow.clipIndex).nodup_iff).2 hnodup
    have heq : GetProjectClips s₁ = GetProjectClips s₂ :=
      eq_of_perm_sorted_nodup _ _ h1
        (List.sorted_insertionSort byClipIndex s₁)
        (List.sorted_insertionSort byClipIndex s₂) hnodup₁
    exact ⟨heq, by simp [collectClipVideos, heq]⟩

/-- Witness for C9: two storage orders of the same three clips — one in
completion order, one already sorted — produce the same sorted clip list
and the same concatenation input. -/
theorem C9_concat_order_witness :
    GetProjectClips [⟨2, some 22⟩, ⟨0, some 20⟩, ⟨1, some 21⟩] =
      GetProjectClips [⟨0, some 20⟩, ⟨1, some 21⟩, ⟨2, some 22⟩] ∧
    collectClipVideos [⟨2, some 22⟩, ⟨0, some 20⟩, ⟨1, some 21⟩] =
      collectClipVideos [⟨0, some 20⟩, ⟨1, some 21⟩, ⟨2, some 22⟩] :=
  C9_concat_order.2.2 [⟨2, some 22⟩, ⟨0, some 20⟩, ⟨1, some 21⟩]
    [⟨0, some 20⟩, ⟨1, some 21⟩, ⟨2, some 22⟩] (by decide) (by decide)

/-- Keys of the object map after an upsert: unchanged when the path was
present, appended otherwise. -/
theorem upsertObject_keys (path : String) (d : Nat) :
    ∀ m : List (String × Nat),
      (upsertObject m path d).map Prod.fst =
        if path ∈ m.map Prod.fst then m.map Prod.fst else m.map Prod.fst ++ [path] := by
  intro m
  induction m with
  | nil => simp [upsertObject]
  | cons q t ih =>
      obtain ⟨qp, qd⟩ := q
      by_cases hq : qp = path
      · subst hq
        simp [upsertObject]
      · simp only [upsertObject, if_neg hq, List.map_cons]
        rw [ih]
        by_cases hmem : path ∈ t.map Prod.fst <;>
          simp [hmem, hq, Ne.symm hq]

/-- The upserted path is always present afterwards. -/
theorem upsertObject_mem (path : String) (d : Nat) (m : List (String × Nat)) :
    path ∈ (upsertObject m path d).map Prod.fst := by
  rw [upsertObject_keys]
  by_cases hmem : path ∈ m.map Prod.fst <;> simp [hmem]

/-- C10: `handleRenderFinal` never short-circuits on project status.
(1) Whenever every clip holds a video asset the run succeeds and, from
any starting project state, uploads to the fixed per-project
`final.mp4` path with upsert, appends exactly one final-video asset row
and sets status `completed` with the pointer set; (2) the result is
independent of the incoming project status; (3) a second run on the
output of a first run succeeds and leaves status `completed`, the
pointer set and the storage paths unchanged, differing only in the one
appended asset row. -/
theorem C10_renderFinal_rerun :
    (∀ (pid : String) (id d : Nat) (st : RFState),
      (∀ c ∈ st.clips, c.videoAssetId.isSome = true) →
      ∃ st', handleRenderFinal pid id d st = .ok st' ∧
        st'.project.status = ProjectStatus.completed ∧
        st'.project.finalVideoAssetId = some id ∧
        st'.clips = st.clips ∧
        st'.assets = st.assets ++
          [⟨id, "final_video", GenerateStoragePath pid "final.mp4"⟩] ∧
        st'.storageObjects =
          upsertObject st.storageObjects (GenerateStoragePath pid "final.mp4") d) ∧
    (∀ (pid : String) (id d : Nat) (st : RFState) (p : ProjectRow),
      handleRenderFinal pid id d { st with project := p } =
        handleRenderFinal pid id d st) ∧
    (∀ (pid : String) (id1 id2 d1 d2 : Nat) (st st1 st2 : RFState),
      handleRenderFinal pid id1 d1 st = .ok st1 →
      handleRenderFinal pid id2 d2 st1 = .ok st2 →
      st2.project.status = ProjectStatus.completed ∧
      st2.project.finalVideoAssetId = some id2 ∧
      st2.clips = st1.clips ∧
      st2.assets = st1.assets ++
        [⟨id2, "final_video", GenerateStoragePath pid "final.mp4"⟩] ∧
      st2.storageObjects.map Prod.fst = st1.storageObjects.map Prod.fst) := by
  refine ⟨?_, ?_, ?_⟩
  · intro pid id d st hall
    have hmem : ∀ c ∈ GetProjectClips st.clips, c.videoAssetId.isSome = true :=
      fun c hc => hall c ((List.perm_insertionSort byClipIndex st.clips).subset hc)
    obtain ⟨ps, hps⟩ := collectClipVideosGo_ok (GetProjectClips st.clips) hmem
    refine ⟨⟨⟨ProjectStatus.completed, some id⟩, st.clips,
        st.assets ++ [⟨id, "final_video", GenerateStoragePath pid "final.mp4"⟩],
        upsertObject st.storageObjects (GenerateStoragePath pid "final.mp4") d⟩,
      ?_, rfl, rfl, rfl, rfl, rfl⟩
    simp [handleRenderFinal, collectClipVideos, hps]
  · intro pid id d st p
    simp only [handleRenderFinal]
  · intro pid id1 id2 d1 d2 st st1 st2 h1 h2
    simp only [handleRenderFinal] at h1 h2
    cases hc1 : collectClipVideos st.clips with
    | error e => simp [hc1] at h1
    | ok ps1 =>
        simp only [hc1, Except.ok.injEq] at h1
        subst h1
        simp only [hc1, Except.ok.injEq] at h2
        subst h2
        refine ⟨rfl, rfl, rfl, rfl, ?_⟩
        have hpath := upsertObject_mem (GenerateStoragePath pid "final.mp4") d1
          st.storageObjects
        rw [upsertObject_keys]
        simp [hpath]

/-- Witness for C10: running `handleRenderFinal` twice on a one-clip
project that is already `completed` with a stored final video.  The
second run leaves status, pointer presence and storage paths unchanged
and appends one asset row. -/
theorem C10_renderFinal_rerun_witness :
    (⟨⟨ProjectStatus.completed, some 8⟩, [⟨0, some 10⟩],
        [⟨7, "final_video", "proj/final.mp4"⟩, ⟨8, "final_video", "proj/final.mp4"⟩],
        [("proj/final.mp4", 200)]⟩ : RFState).project.status = ProjectStatus.completed ∧
    (⟨⟨ProjectStatus.completed, some 8⟩, [⟨0, some 10⟩],
        [⟨7, "final_video", "proj/final.mp4"⟩, ⟨8, "final_video", "proj/final.mp4"⟩],
        [("proj/final.mp4", 200)]⟩ : RFState).assets =
      [⟨7, "final_video", "proj/final.mp4"⟩] ++ [⟨8, "final_video", "proj/final.mp4"⟩] := by
  have h := C10_renderFinal_rerun.2.2 "proj" 7 8 100 200
    ⟨⟨ProjectStatus.queued, none⟩, [⟨0, some 10⟩], [], []⟩
    ⟨⟨ProjectStatus.completed, some 7⟩, [⟨0, some 10⟩],
      [⟨7, "final_video", "proj/final.mp4"⟩], [("proj/final.mp4", 100)]⟩
    ⟨⟨ProjectStatus.completed, some 8⟩, [⟨0, some 10⟩],
      [⟨7, "final_video", "proj/final.mp4"⟩, ⟨8, "final_video", "proj/final.mp4"⟩],
      [("proj/final.mp4", 200)]⟩
    (by rfl) (by rfl)
  exact ⟨h.1, h.2.2.2.1⟩

end FinalRender

end VideoGenie
